import Mathlib

/-!
Verification of the geoutil repository (github.com/Hikitak/geoutil).

The Go source is embedded shallowly:

* `float64` coordinates are modelled as exact rationals (`ℚ`); none of the
  verified claims depends on floating-point rounding.
* `time.Time` / `time.Duration` values are modelled as `Int` nanosecond
  counts, matching Go's `int64` nanosecond representation (overflow is out
  of scope for every claim considered here).
* Each concurrent batch operation sends one `result{index, value, err}`
  record per task into a buffered channel (capacity = task count, so no
  send ever blocks) and a single collector loop ranges over that channel.
  The only scheduling freedom visible to the collector is the order in
  which the task results arrive on the channel, so a batch run is modelled
  as a function of the work function, the inputs, and an `arrival` list:
  the sequence of task indices in channel-delivery order.  A complete run
  corresponds to `arrival` being a permutation of all task indices.
* The worker-pool / semaphore structure itself is modelled separately as a
  schedule of per-worker steps (see the concurrency section below).
-/

set_option autoImplicit false

namespace Geoutil

/-- Point from types.go: a geographic coordinate (Lat, Lon float64),
modelled with rational coordinates. -/
structure Point where
  Lat : ℚ
  Lon : ℚ
  deriving DecidableEq, Repr

/-- Location from types.go: comprehensive geographic information. -/
structure Location where
  Country : String
  City : String
  Address : String
  Lat : ℚ
  Lon : ℚ
  Elevation : Int
  Timezone : String
  deriving DecidableEq, Repr

/-- The zero value `Location{}` of Go. -/
def zeroLocation : Location :=
  { Country := "", City := "", Address := "", Lat := 0, Lon := 0
    Elevation := 0, Timezone := "" }

/-- The zero value `Point{}` of Go. -/
def zeroPoint : Point := { Lat := 0, Lon := 0 }

/-! ### Slice writes

`out[i] = v` on a Go slice, as a pure list update: out-of-range writes
cannot happen in the source (indices come from `range` loops), and the
model leaves the list unchanged there. -/

/-- Write `v` at position `i`, identity when `i` is out of range. -/
def setAt {β : Type} : List β → Nat → β → List β
  | [], _, _ => []
  | _ :: xs, 0, v => v :: xs
  | x :: xs, n + 1, v => x :: setAt xs n v

theorem length_setAt {β : Type} (l : List β) (i : Nat) (v : β) :
    (setAt l i v).length = l.length := by
  induction l generalizing i with
  | nil => rfl
  | cons x xs ih =>
    cases i with
    | zero => rfl
    | succ n => simp [setAt, ih]

theorem getD_setAt {β : Type} (l : List β) (i j : Nat) (v d : β) :
    (setAt l i v).getD j d =
      if i = j ∧ i < l.length then v else l.getD j d := by
  induction l generalizing i j with
  | nil => simp [setAt]
  | cons x xs ih =>
    cases i with
    | zero =>
      cases j with
      | zero => simp [setAt]
      | succ m => simp [setAt]
    | succ n =>
      cases j with
      | zero => simp [setAt]
      | succ m =>
        simp only [setAt, List.getD_cons_succ, ih, List.length_cons]
        by_cases h : n = m
        · subst h
          by_cases hb : n < xs.length <;> simp [hb, Nat.succ_lt_succ_iff]
        · simp [h]

/-! ### The ordered result collector

Every batch function in the source ends with the same loop:

    out := make([]T, len(inputs))
    for res := range results {
        if res.err != nil { return nil, res.err }
        out[res.index] = res.value
    }
    return out, nil

Task results are modelled as `Nat × Except ε β` (index, value-or-error) in
channel-delivery order. -/

/-- The fan-in collector loop shared by all batch operations. -/
def collectResults {β ε : Type} (acc : List β) :
    List (Nat × Except ε β) → Except ε (List β)
  | [] => .ok acc
  | (_, .error e) :: _ => .error e
  | (i, .ok v) :: rest => collectResults (setAt acc i v) rest

/-- When every delivered result is a success, the collector returns the
accumulator with each index slot overwritten by its task value. -/
theorem collectResults_ok {β ε : Type} (v : Nat → β) :
    ∀ (arrival : List Nat) (acc : List β),
      collectResults (ε := ε) acc (arrival.map fun i => (i, .ok (v i))) =
        .ok (arrival.foldl (fun a i => setAt a i (v i)) acc) := by
  intro arrival
  induction arrival with
  | nil => intro acc; rfl
  | cons i rest ih => intro acc; simp [collectResults, ih]

theorem length_foldl_setAt {β : Type} (v : Nat → β) :
    ∀ (arrival : List Nat) (acc : List β),
      (arrival.foldl (fun a i => setAt a i (v i)) acc).length = acc.length := by
  intro arrival
  induction arrival with
  | nil => intro acc; rfl
  | cons i rest ih => intro acc; simp [ih, length_setAt]

/-- Slot `j` of the collector output: the task value if task `j` was
delivered, the initial slot contents otherwise.  (The written value
depends only on the index, so duplicates are harmless.) -/
theorem getD_foldl_setAt {β : Type} (v : Nat → β) :
    ∀ (arrival : List Nat) (acc : List β) (j : Nat) (d : β), j < acc.length →
      (arrival.foldl (fun a i => setAt a i (v i)) acc).getD j d =
        if j ∈ arrival then v j else acc.getD j d := by
  intro arrival
  induction arrival with
  | nil => intro acc j d _; simp
  | cons i rest ih =>
    intro acc j d hj
    simp only [List.foldl_cons]
    rw [ih (setAt acc i (v i)) j d (by rw [length_setAt]; exact hj)]
    by_cases hr : j ∈ rest
    · simp [hr]
    · rw [getD_setAt]
      by_cases hij : i = j
      · subst hij
        simp [hr, hj]
      · simp [hr, hij, Ne.symm hij]

/-- If some delivered result is a failure, the collector fails. -/
theorem collectResults_error {β ε : Type} :
    ∀ (l : List (Nat × Except ε β)) (acc : List β),
      (∃ x ∈ l, ∃ e, x.2 = .error e) →
      ∃ e, collectResults acc l = .error e := by
  intro l
  induction l with
  | nil => intro acc h; obtain ⟨x, hx, _⟩ := h; exact absurd hx (List.not_mem_nil x)
  | cons p rest ih =>
    intro acc h
    obtain ⟨i, r⟩ := p
    cases r with
    | error e => exact ⟨e, rfl⟩
    | ok w =>
      obtain ⟨x, hx, e, hxe⟩ := h
      rcases List.mem_cons.mp hx with hhd | htl
      · subst hhd; simp at hxe
      · exact ih (setAt acc i w) ⟨x, htl, e, hxe⟩

/-! ### The batch operations (geocoding.go, elevation.go, part_000)

Each batch function is parametrised by its work function (the source work
functions perform HTTP requests, abstracted here as `Except`-returning
functions) and by the channel-delivery order `arrival` of task indices. -/

/-- BatchGeocode from geocoding.go: one goroutine per address calls
`n.Geocode(address)` under a 10-slot semaphore; the collector fills
`points := make([]Point, len(addresses))` by result index, failing on the
first delivered error. -/
def BatchGeocode {ε : Type} (geocode : String → Except ε Point)
    (addresses : List String) (arrival : List Nat) : Except ε (List Point) :=
  collectResults (List.replicate addresses.length zeroPoint)
    (arrival.map fun i => (i, geocode (addresses.getD i "")))

/-- BatchGetElevation from elevation.go: a pool of `min 8 n` workers calls
`o.GetElevation(point)`; the collector fills `make([]int, len(points))` by
result index, failing on the first delivered error. -/
def BatchGetElevation {ε : Type} (getElevation : Point → Except ε Int)
    (points : List Point) (arrival : List Nat) : Except ε (List Int) :=
  collectResults (List.replicate points.length (0 : Int))
    (arrival.map fun i => (i, getElevation (points.getD i zeroPoint)))

/-- FullLocation from part_000: reverse-geocode, then fetch elevation.
Go returns the pair (Location, error); a geocoding failure yields the zero
Location, an elevation failure yields the reverse-geocoded Location
together with the error, and success stamps Elevation and the "UTC"
timezone placeholder onto the reverse-geocoded Location. -/
def FullLocation {ε : Type} (p : Point)
    (reverseGeocode : Point → Except ε Location)
    (getElevation : Point → Except ε Int) : Location × Option ε :=
  match reverseGeocode p with
  | .error e => (zeroLocation, some e)
  | .ok loc =>
    match getElevation p with
    | .error e => (loc, some e)
    | .ok elev => ({ loc with Elevation := elev, Timezone := "UTC" }, none)

/-- How the batch collector in part_000 reads a `(loc, err)` worker result:
a non-nil `err` is terminal for the task, otherwise `loc` stands. -/
def locResult {ε : Type} : Location × Option ε → Except ε Location
  | (_, some e) => .error e
  | (loc, none) => .ok loc

/-- BatchFullLocation from part_000: a worker pool calls
`FullLocation(t.point, geocoder, elevation)` under a semaphore of capacity
`min (2 * NumCPU) 20`; the collector fills `make([]Location, len(points))`
by result index, failing on the first delivered error. -/
def BatchFullLocation {ε : Type} (reverseGeocode : Point → Except ε Location)
    (getElevation : Point → Except ε Int)
    (points : List Point) (arrival : List Nat) : Except ε (List Location) :=
  collectResults (List.replicate points.length zeroLocation)
    (arrival.map fun i =>
      (i, locResult (FullLocation (points.getD i zeroPoint) reverseGeocode getElevation)))

/-- Generic order-preservation fact: a linear batch whose work function
always succeeds with value `g input` returns exactly `inputs.map g`, for
every complete delivery order. -/
theorem linearBatch_map {α β ε : Type} (f : α → Except ε β) (g : α → β)
    (dα : α) (dβ : β) (inputs : List α) (arrival : List Nat)
    (hf : ∀ a, f a = .ok (g a))
    (hperm : arrival.Perm (List.range inputs.length)) :
    collectResults (List.replicate inputs.length dβ)
      (arrival.map fun i => (i, f (inputs.getD i dα))) =
      .ok (inputs.map g) := by
  have hmap : (arrival.map fun i => (i, f (inputs.getD i dα))) =
      arrival.map fun i => (i, .ok ((fun j => g (inputs.getD j dα)) i)) := by
    simp [hf]
  rw [hmap, collectResults_ok]
  congr 1
  have hlen : (arrival.foldl
      (fun a i => setAt a i (g (inputs.getD i dα)))
      (List.replicate inputs.length dβ)).length = inputs.length := by
    rw [length_foldl_setAt, List.length_replicate]
  apply List.ext_getElem (by rw [hlen, List.length_map])
  intro j h1 h2
  have hjn : j < inputs.length := hlen ▸ h1
  have hmem : j ∈ arrival := hperm.mem_iff.mpr (List.mem_range.mpr hjn)
  have hchar := getD_foldl_setAt (fun i => g (inputs.getD i dα)) arrival
    (List.replicate inputs.length dβ) j dβ (by simpa using hjn)
  rw [List.getD_eq_getElem _ _ h1] at hchar
  rw [hchar, if_pos hmem, List.getElem_map]
  show g (inputs.getD j dα) = g inputs[j]
  exact congrArg g (List.getD_eq_getElem inputs dα hjn)

/-- Claim C1: for every input sequence of length N and every work function
that succeeds on all inputs, BatchGeocode and BatchGetElevation return the
sequence whose i-th element is the work function's value on the i-th
input, for every complete channel-delivery order (hence for every
concurrency setting). -/
theorem c1_batch_order_preservation {ε : Type}
    (geocode : String → Except ε Point) (gp : String → Point)
    (addresses : List String) (arrA : List Nat)
    (getElevation : Point → Except ε Int) (ge : Point → Int)
    (points : List Point) (arrE : List Nat)
    (hg : ∀ a, geocode a = .ok (gp a))
    (hA : arrA.Perm (List.range addresses.length))
    (he : ∀ p, getElevation p = .ok (ge p))
    (hE : arrE.Perm (List.range points.length)) :
    BatchGeocode geocode addresses arrA = .ok (addresses.map gp) ∧
      BatchGetElevation getElevation points arrE = .ok (points.map ge) :=
  ⟨linearBatch_map geocode gp "" zeroPoint addresses arrA hg hA,
   linearBatch_map getElevation ge zeroPoint 0 points arrE he hE⟩

/-- Witness for C1 at a concrete instance: two addresses geocoded to their
lengths and two points with constant elevation, results delivered out of
order. -/
theorem c1_batch_order_preservation_witness :
    BatchGeocode (ε := Unit) (fun a => .ok ⟨0, if a = "A" then 1 else 2⟩)
        ["A", "BB"] [1, 0] = .ok [⟨0, 1⟩, ⟨0, 2⟩] ∧
      BatchGetElevation (ε := Unit) (fun p => .ok (if p.Lat = 0 then 3 else 7))
        [⟨0, 0⟩, ⟨1, 1⟩] [1, 0] = .ok [3, 7] := by
  have h := c1_batch_order_preservation (ε := Unit)
    (fun a => .ok ⟨0, if a = "A" then 1 else 2⟩)
    (fun a => ⟨0, if a = "A" then 1 else 2⟩)
    ["A", "BB"] [1, 0]
    (fun p => .ok (if p.Lat = 0 then 3 else 7)) (fun p => if p.Lat = 0 then 3 else 7)
    [⟨0, 0⟩, ⟨1, 1⟩] [1, 0]
    (fun _ => rfl) (by decide) (fun _ => rfl) (by decide)
  exact ⟨h.1.trans rfl, h.2.trans rfl⟩

/-- Generic fail-fast fact: if some task of a complete delivery fails, the
collector returns an error (and hence no output sequence). -/
theorem linearBatch_fails {α β ε : Type} (f : α → Except ε β)
    (dα : α) (dβ : β) (inputs : List α) (arrival : List Nat)
    (k : Nat) (e : ε)
    (hk : k < inputs.length) (hf : f (inputs.getD k dα) = .error e)
    (hperm : arrival.Perm (List.range inputs.length)) :
    ∃ e2, collectResults (List.replicate inputs.length dβ)
      (arrival.map fun i => (i, f (inputs.getD i dα))) = .error e2 := by
  apply collectResults_error
  refine ⟨(k, f (inputs.getD k dα)), ?_, e, hf⟩
  exact List.mem_map.mpr
    ⟨k, hperm.mem_iff.mpr (List.mem_range.mpr hk), rfl⟩

/-- Claim C2: if at least one task's work invocation fails — at any
position — then BatchGeocode, BatchGetElevation and BatchFullLocation each
return a non-nil error and no output sequence (the `Except.error` result
carries no slice, so a partially populated sequence is never surfaced). -/
theorem c2_batch_fail_fast {ε : Type}
    (geocode : String → Except ε Point)
    (addresses : List String) (arrA : List Nat) (ka : Nat) (ea : ε)
    (getElevation : Point → Except ε Int)
    (points : List Point) (arrE : List Nat) (ke : Nat) (ee : ε)
    (reverseGeocode : Point → Except ε Location)
    (fpoints : List Point) (arrF : List Nat) (kf : Nat) (ef : ε)
    (hka : ka < addresses.length)
    (hga : geocode (addresses.getD ka "") = .error ea)
    (hA : arrA.Perm (List.range addresses.length))
    (hke : ke < points.length)
    (hge : getElevation (points.getD ke zeroPoint) = .error ee)
    (hE : arrE.Perm (List.range points.length))
    (hkf : kf < fpoints.length)
    (hgf : locResult (FullLocation (fpoints.getD kf zeroPoint)
      reverseGeocode getElevation) = .error ef)
    (hF : arrF.Perm (List.range fpoints.length)) :
    (∃ e, BatchGeocode geocode addresses arrA = .error e) ∧
      (∃ e, BatchGetElevation getElevation points arrE = .error e) ∧
      (∃ e, BatchFullLocation reverseGeocode getElevation fpoints arrF = .error e) :=
  ⟨linearBatch_fails geocode "" zeroPoint addresses arrA ka ea hka hga hA,
   linearBatch_fails getElevation zeroPoint 0 points arrE ke ee hke hge hE,
   linearBatch_fails
     (fun p => locResult (FullLocation p reverseGeocode getElevation))
     zeroPoint zeroLocation fpoints arrF kf ef hkf hgf hF⟩

/-- Witness for C2 at a concrete instance: the middle task of three fails
in each batch (the elevation failure also makes FullLocation fail). -/
theorem c2_batch_fail_fast_witness :
    (∃ e, BatchGeocode (ε := Nat)
        (fun a => if a = "B" then .error 9 else .ok zeroPoint)
        ["A", "B", "C"] [2, 1, 0] = .error e) ∧
      (∃ e, BatchGetElevation (ε := Nat)
        (fun p => if p.Lat = 1 then .error 8 else .ok 0)
        [⟨0, 0⟩, ⟨1, 0⟩, ⟨2, 0⟩] [0, 1, 2] = .error e) ∧
      (∃ e, BatchFullLocation (ε := Nat)
        (fun _ => .ok zeroLocation)
        (fun p => if p.Lat = 1 then .error 8 else .ok 0)
        [⟨0, 0⟩, ⟨1, 0⟩, ⟨2, 0⟩] [1, 0, 2] = .error e) :=
  c2_batch_fail_fast
    (fun a => if a = "B" then .error 9 else .ok zeroPoint)
    ["A", "B", "C"] [2, 1, 0] 1 9
    (fun p => if p.Lat = 1 then .error 8 else .ok 0)
    [⟨0, 0⟩, ⟨1, 0⟩, ⟨2, 0⟩] [0, 1, 2] 1 8
    (fun _ => .ok zeroLocation)
    [⟨0, 0⟩, ⟨1, 0⟩, ⟨2, 0⟩] [1, 0, 2] 1 8
    (by decide) rfl (by decide)
    (by decide) rfl (by decide)
    (by decide) rfl (by decide)

/-! ### The TTL cache (cache.go)

`time.Time` and `time.Duration` are `Int` nanosecond counts; the item map
is a total function to `Option`.  `Get` misses when the entry is absent or
`time.Now().After(item.expiry)` holds, i.e. strictly after expiry. -/

/-- Cache from cache.go: items map plus the uniform TTL. -/
structure Cache (V : Type) where
  items : String → Option (V × Int)
  ttl : Int

/-- NewCache from cache.go: empty item map, given TTL (the background
cleanup goroutine it spawns is modelled by `Cache.cleanup` below). -/
def NewCache (V : Type) (ttl : Int) : Cache V :=
  { items := fun _ => none, ttl := ttl }

/-- Cache.Set from cache.go: insert/overwrite with expiry `now + ttl`. -/
def Cache.Set {V : Type} (c : Cache V) (now : Int) (key : String) (value : V) :
    Cache V :=
  { c with items := fun k =>
      if k = key then some (value, now + c.ttl) else c.items k }

/-- Cache.Get from cache.go: `(nil, false)` if absent or
`time.Now().After(expiry)` (i.e. `now > expiry`), else `(value, true)`. -/
def Cache.Get {V : Type} (c : Cache V) (now : Int) (key : String) :
    Option V × Bool :=
  match c.items key with
  | none => (none, false)
  | some (v, expiry) => if now > expiry then (none, false) else (some v, true)

/-- One pass of the cleanup sweep from cache.go at time `now`: delete every
entry with `now.After(expiry)`. -/
def Cache.cleanup {V : Type} (c : Cache V) (now : Int) : Cache V :=
  { c with items := fun k =>
      match c.items k with
      | some (v, expiry) => if now > expiry then none else some (v, expiry)
      | none => none }

/-- Counterexample to claim C3 as stated: with TTL 5, a value set at time 0
is still readable at time 5, yet `now < expiresAt` (5 < 0 + 5) is false —
`time.Now().After(expiry)` is strict, so the read-at-expiry instant hits.
The claimed "readable iff now < expiresAt" is therefore false. -/
theorem c3_cache_ttl_counterexample :
    (((NewCache Nat 5).Set 0 "k" 42).Get 5 "k").2 = true ∧ ¬ ((5 : Int) < 0 + 5) :=
  ⟨rfl, by decide⟩

/-- Claim C3 (amended): after `Set(k, v)` at time `t0` on a cache with TTL
`T`, `Get(k)` returns `(v, true)` strictly before `t0 + T`, returns
`(nil, false)` strictly after `t0 + T`, the entry is readable if and only
if `now ≤ t0 + T` (Go's `After` is strict, so the read at exactly the
expiry instant still hits), and the answer is unchanged by a cleanup sweep
run at any time `ts ≤ now`. -/
theorem c3_cache_ttl {V : Type} (c : Cache V) (t0 t : Int) (k : String) (v : V) :
    (t < t0 + c.ttl → (c.Set t0 k v).Get t k = (some v, true)) ∧
      (t > t0 + c.ttl → (c.Set t0 k v).Get t k = (none, false)) ∧
      (((c.Set t0 k v).Get t k).2 = true ↔ t ≤ t0 + c.ttl) ∧
      (∀ ts, ts ≤ t → ((c.Set t0 k v).cleanup ts).Get t k = (c.Set t0 k v).Get t k) := by
  refine ⟨?_, ?_, ?_, ?_⟩
  · intro h
    simp [Cache.Set, Cache.Get, not_lt_of_ge (le_of_lt h)]
  · intro h
    simp [Cache.Set, Cache.Get, h]
  · by_cases h : t > t0 + c.ttl
    · simp [Cache.Set, Cache.Get, h]
    · simp [Cache.Set, Cache.Get, h]
      omega
  · intro ts hts
    by_cases h : ts > t0 + c.ttl
    · have ht : t > t0 + c.ttl := lt_of_lt_of_le h hts
      simp [Cache.Set, Cache.Get, Cache.cleanup, h, ht]
    · simp [Cache.Set, Cache.Get, Cache.cleanup, h]

/-- Witness for C3 at concrete times: TTL 5, set at 0, read at 4 (hit),
read at 6 (miss), readability at 5, and a sweep at 3 not changing the
read at 4. -/
theorem c3_cache_ttl_witness :
    ((NewCache Nat 5).Set 0 "k" 42).Get 4 "k" = (some 42, true) ∧
      ((NewCache Nat 5).Set 0 "k" 42).Get 6 "k" = (none, false) ∧
      ((((NewCache Nat 5).Set 0 "k" 42).Get 5 "k").2 = true ↔ (5 : Int) ≤ 0 + 5) ∧
      (((NewCache Nat 5).Set 0 "k" 42).cleanup 3).Get 4 "k" =
        ((NewCache Nat 5).Set 0 "k" 42).Get 4 "k" :=
  ⟨(c3_cache_ttl (NewCache Nat 5) 0 4 "k" 42).1 (by decide),
   (c3_cache_ttl (NewCache Nat 5) 0 6 "k" 42).2.1 (by decide),
   (c3_cache_ttl (NewCache Nat 5) 0 5 "k" 42).2.2.1,
   (c3_cache_ttl (NewCache Nat 5) 0 4 "k" 42).2.2.2 3 (by decide)⟩

/-! ### Constructors (geocoding.go, elevation.go)

Durations are `Int` nanoseconds; `rate.NewLimiter(rate.Limit(r), 1)` is
recorded as the pair (limiterRate, limiterBurst). -/

/-- One second of `time.Duration`, in nanoseconds. -/
def secondNs : Int := 1000000000

/-- One hour of `time.Duration`, in nanoseconds. -/
def hourNs : Int := 3600 * secondNs

/-- GeocoderConfig from types.go. -/
structure GeocoderConfig where
  UserAgent : String
  RequestsPerSec : Int
  Timeout : Int
  deriving DecidableEq, Repr

/-- NominatimGeocoder from geocoding.go (the observable configuration of
the constructed client: base URL, HTTP client timeout, limiter parameters,
cache TTL, stored config). -/
structure NominatimGeocoder where
  baseURL : String
  httpTimeout : Int
  limiterRate : Int
  limiterBurst : Int
  cacheTTL : Int
  config : GeocoderConfig
  deriving DecidableEq, Repr

/-- NewNominatimGeocoder from geocoding.go: defaults RequestsPerSec 0 → 1
and Timeout 0 → 10s on the local config copy, then builds the client. -/
def NewNominatimGeocoder (config : GeocoderConfig) : NominatimGeocoder :=
  let config :=
    if config.RequestsPerSec = 0 then { config with RequestsPerSec := 1 } else config
  let config :=
    if config.Timeout = 0 then { config with Timeout := 10 * secondNs } else config
  { baseURL := "https://nominatim.openstreetmap.org"
    httpTimeout := config.Timeout
    limiterRate := config.RequestsPerSec
    limiterBurst := 1
    cacheTTL := 24 * hourNs
    config := config }

/-- OpenElevationProvider from elevation.go (observable configuration). -/
structure OpenElevationProvider where
  baseURL : String
  httpTimeout : Int
  limiterRate : Int
  limiterBurst : Int
  cacheTTL : Int
  deriving DecidableEq, Repr

/-- NewOpenElevationProvider from elevation.go: defaults rps 0 → 5, fixed
10s HTTP timeout and 30-day cache TTL. -/
def NewOpenElevationProvider (rps : Int) : OpenElevationProvider :=
  let rps := if rps = 0 then 5 else rps
  { baseURL := "https://api.open-elevation.com/api/v1/lookup"
    httpTimeout := 10 * secondNs
    limiterRate := rps
    limiterBurst := 1
    cacheTTL := 30 * 24 * hourNs }

/-- Claim C10: the constructors substitute defaults exactly for zero-valued
settings and otherwise keep the caller's values: NewNominatimGeocoder maps
RequestsPerSec 0 → 1 and Timeout 0 → 10s, NewOpenElevationProvider maps
rps 0 → 5; every non-zero value is kept as the client's rate limit and
timeout. -/
theorem c10_constructor_defaults :
    (∀ cfg : GeocoderConfig, cfg.RequestsPerSec ≠ 0 →
        (NewNominatimGeocoder cfg).limiterRate = cfg.RequestsPerSec) ∧
      (∀ cfg : GeocoderConfig, cfg.RequestsPerSec = 0 →
        (NewNominatimGeocoder cfg).limiterRate = 1) ∧
      (∀ cfg : GeocoderConfig, cfg.Timeout ≠ 0 →
        (NewNominatimGeocoder cfg).httpTimeout = cfg.Timeout) ∧
      (∀ cfg : GeocoderConfig, cfg.Timeout = 0 →
        (NewNominatimGeocoder cfg).httpTimeout = 10 * secondNs) ∧
      (∀ rps : Int, rps ≠ 0 → (NewOpenElevationProvider rps).limiterRate = rps) ∧
      ((NewOpenElevationProvider 0).limiterRate = 5) := by
  refine ⟨?_, ?_, ?_, ?_, ?_, rfl⟩
  · intro cfg h
    simp only [NewNominatimGeocoder, if_neg h]
    split <;> rfl
  · intro cfg h
    simp only [NewNominatimGeocoder, if_pos h]
    split <;> rfl
  · intro cfg h
    simp only [NewNominatimGeocoder]
    split <;> simp [if_neg h]
  · intro cfg h
    simp only [NewNominatimGeocoder]
    split <;> simp [if_pos h, h]
  · intro rps h
    simp [NewOpenElevationProvider, if_neg h]

/-- Witness for C10 at concrete configurations: non-zero settings are kept
verbatim (rate 2, timeout 7 ns; elevation rps 3). -/
theorem c10_constructor_defaults_witness :
    (NewNominatimGeocoder ⟨"ua", 2, 7⟩).limiterRate = 2 ∧
      (NewNominatimGeocoder ⟨"ua", 0, 7⟩).limiterRate = 1 ∧
      (NewNominatimGeocoder ⟨"ua", 2, 7⟩).httpTimeout = 7 ∧
      (NewNominatimGeocoder ⟨"ua", 2, 0⟩).httpTimeout = 10 * secondNs ∧
      (NewOpenElevationProvider 3).limiterRate = 3 ∧
      (NewOpenElevationProvider 0).limiterRate = 5 :=
  ⟨c10_constructor_defaults.1 ⟨"ua", 2, 7⟩ (by decide),
   c10_constructor_defaults.2.1 ⟨"ua", 0, 7⟩ rfl,
   c10_constructor_defaults.2.2.1 ⟨"ua", 2, 7⟩ (by decide),
   c10_constructor_defaults.2.2.2.1 ⟨"ua", 2, 0⟩ rfl,
   c10_constructor_defaults.2.2.2.2.1 3 (by decide),
   c10_constructor_defaults.2.2.2.2.2⟩

/-! ### FullLocation error path (claim C8) -/

/-- The Location that NominatimGeocoder.ReverseGeocode builds from a
successful Nominatim response (geocoding.go): address fields from the
payload, coordinates from the queried point, Elevation and Timezone left
at their zero values. -/
def reverseLocation (country city road house : String) (p : Point) : Location :=
  { Country := country
    City := city
    Address := road ++ " " ++ house
    Lat := p.Lat
    Lon := p.Lon
    Elevation := 0
    Timezone := "" }

/-- Claim C8: when reverse geocoding succeeds but the elevation lookup
fails, FullLocation returns the reverse-geocoded Location — Country,
City, Address, Lat, Lon populated, Elevation and Timezone still zero —
together with the non-nil error, not a zero Location. -/
theorem c8_fulllocation_partial_on_elevation_error {ε : Type} (p : Point)
    (reverseGeocode : Point → Except ε Location)
    (getElevation : Point → Except ε Int)
    (country city road house : String) (e : ε)
    (hg : reverseGeocode p = .ok (reverseLocation country city road house p))
    (he : getElevation p = .error e) :
    FullLocation p reverseGeocode getElevation =
        (reverseLocation country city road house p, some e) ∧
      (reverseLocation country city road house p).Country = country ∧
      (reverseLocation country city road house p).City = city ∧
      (reverseLocation country city road house p).Address = road ++ " " ++ house ∧
      (reverseLocation country city road house p).Lat = p.Lat ∧
      (reverseLocation country city road house p).Lon = p.Lon ∧
      (reverseLocation country city road house p).Elevation = 0 ∧
      (reverseLocation country city road house p).Timezone = "" := by
  refine ⟨?_, rfl, rfl, rfl, rfl, rfl, rfl, rfl⟩
  simp [FullLocation, hg, he]

/-- Witness for C8 at a concrete instance. -/
theorem c8_fulllocation_partial_on_elevation_error_witness :
    FullLocation (ε := Nat) ⟨1, 2⟩
        (fun q => .ok (reverseLocation "France" "Paris" "Rue" "5" q))
        (fun _ => .error 7) =
      (reverseLocation "France" "Paris" "Rue" "5" ⟨1, 2⟩, some 7) :=
  (c8_fulllocation_partial_on_elevation_error ⟨1, 2⟩
    (fun q => .ok (reverseLocation "France" "Paris" "Rue" "5" q))
    (fun _ => .error 7) "France" "Paris" "Rue" "5" 7 rfl rfl).1

/-! ### Point-in-polygon (part_004)

The ray-casting loop keeps the pair (inside, j); at iteration `i` the edge
is (polygon[j], polygon[i]) with `j` the previous index (initially
`len - 1`).  Division is exact rational division here; totality of the
source's float division is established by `IsPointInPolygonChecked`. -/

/-- One iteration of the IsPointInPolygon loop on state (inside, j). -/
def pipStep (p : Point) (polygon : List Point) (st : Bool × Nat) (i : Nat) :
    Bool × Nat :=
  let vi := polygon.getD i zeroPoint
  let vj := polygon.getD st.2 zeroPoint
  let cond := (decide (vi.Lon > p.Lon) != decide (vj.Lon > p.Lon)) &&
    decide (p.Lat < (vj.Lat - vi.Lat) * (p.Lon - vi.Lon) / (vj.Lon - vi.Lon) + vi.Lat)
  (if cond then !st.1 else st.1, i)

/-- IsPointInPolygon from part_004: fewer than 3 vertices contain no
points; otherwise run the ray-casting loop over all vertex indices. -/
def IsPointInPolygon (p : Point) (polygon : List Point) : Bool :=
  if polygon.length < 3 then false
  else ((List.range polygon.length).foldl (pipStep p polygon)
    (false, polygon.length - 1)).1

/-- One iteration of the loop instrumented for the evaluation order of the
source: the quotient is formed only after the short-circuit conjunction's
first operand held, and the instrumented step fails (`none`) if the
divisor `polygon[j].Lon - polygon[i].Lon` is zero at that moment. -/
def pipStepChecked (p : Point) (polygon : List Point)
    (st : Option (Bool × Nat)) (i : Nat) : Option (Bool × Nat) :=
  match st with
  | none => none
  | some (inside, j) =>
    let vi := polygon.getD i zeroPoint
    let vj := polygon.getD j zeroPoint
    if decide (vi.Lon > p.Lon) != decide (vj.Lon > p.Lon) then
      if vj.Lon - vi.Lon = 0 then none
      else
        some (if p.Lat < (vj.Lat - vi.Lat) * (p.Lon - vi.Lon) / (vj.Lon - vi.Lon) + vi.Lat
          then !inside else inside, i)
    else some (inside, i)

/-- IsPointInPolygon with the division-by-zero instrumentation. -/
def IsPointInPolygonChecked (p : Point) (polygon : List Point) : Option Bool :=
  if polygon.length < 3 then some false
  else (((List.range polygon.length).foldl (pipStepChecked p polygon)
    (some (false, polygon.length - 1))).map (fun st => st.1))

theorem pipStepChecked_eq (p : Point) (polygon : List Point)
    (st : Bool × Nat) (i : Nat) :
    pipStepChecked p polygon (some st) i = some (pipStep p polygon st i) := by
  obtain ⟨inside, j⟩ := st
  simp only [pipStepChecked, pipStep]
  set vi := polygon.getD i zeroPoint with hvi
  set vj := polygon.getD j zeroPoint with hvj
  by_cases hc : decide (vi.Lon > p.Lon) != decide (vj.Lon > p.Lon)
  · have hne : vj.Lon - vi.Lon ≠ 0 := by
      intro h0
      have : vj.Lon = vi.Lon := by linarith [sub_eq_zero.mp h0]
      rw [this] at hc
      simp at hc
    rw [if_pos hc, if_neg hne]
    simp [hc]
  · rw [if_neg hc]
    simp [Bool.not_eq_true] at hc
    simp [hc]

theorem pip_foldl_checked (p : Point) (polygon : List Point) :
    ∀ (l : List Nat) (st : Bool × Nat),
      l.foldl (pipStepChecked p polygon) (some st) =
        some (l.foldl (pipStep p polygon) st) := by
  intro l
  induction l with
  | nil => intro st; rfl
  | cons i rest ih =>
    intro st
    simp only [List.foldl_cons, pipStepChecked_eq, ih]

/-- Claim C9: IsPointInPolygon is total — under the source's short-circuit
evaluation, the division is reached only when `(polygon[i].Lon > p.Lon)`
differs from `(polygon[j].Lon > p.Lon)`, which forces the divisor
`polygon[j].Lon - polygon[i].Lon` to be non-zero, so the instrumented run
never fails and agrees with IsPointInPolygon on every input. -/
theorem c9_ispointinpolygon_division_safe (p : Point) (polygon : List Point) :
    IsPointInPolygonChecked p polygon = some (IsPointInPolygon p polygon) := by
  unfold IsPointInPolygonChecked IsPointInPolygon
  by_cases h : polygon.length < 3
  · simp [h]
  · simp [h, pip_foldl_checked]

/-- FilterPointsInPolygonConcurrent from part_004: batch workers test each
point index once and send `(index, valid)`; the collector appends
`points[res.index]` for every valid result in channel-delivery order
(`arrival`). -/
def FilterPointsInPolygonConcurrent (points polygon : List Point)
    (arrival : List Nat) : List Point :=
  arrival.foldl (fun acc j =>
    if IsPointInPolygon (points.getD j zeroPoint) polygon
    then acc ++ [points.getD j zeroPoint] else acc) []

/-- Claim C7: a polygon with fewer than 3 vertices is treated as containing
no points — IsPointInPolygon returns false for every point, and the
concurrent filter over such a polygon returns the empty list for every
input point set and every result-delivery order. -/
theorem c7_degenerate_polygon_empty (p : Point) (polygon : List Point)
    (points : List Point) (arrival : List Nat)
    (h : polygon.length < 3) :
    IsPointInPolygon p polygon = false ∧
      FilterPointsInPolygonConcurrent points polygon arrival = [] := by
  constructor
  · simp [IsPointInPolygon, h]
  · show List.foldl _ [] arrival = []
    have hgen : ∀ (l : List Nat),
        l.foldl (fun acc j =>
          if IsPointInPolygon (points.getD j zeroPoint) polygon
          then acc ++ [points.getD j zeroPoint] else acc) [] = [] := by
      intro l
      induction l with
      | nil => rfl
      | cons j rest ih =>
        have hfalse : IsPointInPolygon (points.getD j zeroPoint) polygon = false := by
          simp [IsPointInPolygon, h]
        simp only [List.foldl_cons, hfalse, Bool.false_eq_true, if_false]
        exact ih
    exact hgen arrival

/-- Witness for C7: a 2-vertex "polygon" contains neither the origin nor
any of three candidate points. -/
theorem c7_degenerate_polygon_empty_witness :
    IsPointInPolygon ⟨0, 0⟩ [⟨0, 0⟩, ⟨1, 1⟩] = false ∧
      FilterPointsInPolygonConcurrent [⟨0, 0⟩, ⟨2, 2⟩, ⟨5, 5⟩]
        [⟨0, 0⟩, ⟨1, 1⟩] [2, 0, 1] = [] :=
  c7_degenerate_polygon_empty ⟨0, 0⟩ [⟨0, 0⟩, ⟨1, 1⟩]
    [⟨0, 0⟩, ⟨2, 2⟩, ⟨5, 5⟩] [2, 0, 1] (by decide)

/-! ### The pairwise distance matrix (part_001)

`BatchDistanceConcurrent` enumerates the upper triangle
(`for i; for j := i+1; j < n`), dispatches each pair to a worker, and the
collector mirrors every result into both `(i,j)` and `(j,i)` of an
initially zero n×n matrix.  The matrix is a list of row lists; `arrival`
is, as before, the channel-delivery order of task results. -/

/-- The task list generated by the upper-triangle loops of part_001. -/
def pairTasks (n : Nat) : List (Nat × Nat) :=
  (List.range n).flatMap fun i =>
    (List.range' (i + 1) (n - (i + 1))).map fun j => (i, j)

/-- `make([][]float64, n)` with each row `make([]float64, n)`. -/
def zeroMatrix (n : Nat) : List (List ℚ) :=
  List.replicate n (List.replicate n 0)

/-- `matrix[i][j]` (default 0 out of range, which no claim exercises). -/
def getMat (m : List (List ℚ)) (i j : Nat) : ℚ :=
  (m.getD i []).getD j 0

/-- `matrix[i][j] = v`. -/
def setMat (m : List (List ℚ)) (i j : Nat) (v : ℚ) : List (List ℚ) :=
  setAt m i (setAt (m.getD i []) j v)

/-- The collector loop of part_001: for each delivered result `(i, j)`,
write its distance into both `(i,j)` and `(j,i)`. -/
def fillDistMatrix (d : Nat → Nat → ℚ) (m : List (List ℚ))
    (l : List (Nat × Nat)) : List (List ℚ) :=
  l.foldl (fun m t => setMat (setMat m t.1 t.2 (d t.1 t.2)) t.2 t.1 (d t.1 t.2)) m

/-- BatchDistanceConcurrent from part_001, as a function of the delivery
order of the upper-triangle task results. -/
def BatchDistanceConcurrent (points : List Point)
    (distanceFunc : Point → Point → ℚ) (arrival : List (Nat × Nat)) :
    List (List ℚ) :=
  fillDistMatrix
    (fun a b => distanceFunc (points.getD a zeroPoint) (points.getD b zeroPoint))
    (zeroMatrix points.length) arrival

/-- Membership in the generated task list: exactly the pairs `i < j < n`. -/
theorem mem_pairTasks (n i j : Nat) :
    (i, j) ∈ pairTasks n ↔ i < j ∧ j < n := by
  simp only [pairTasks, List.mem_flatMap, List.mem_map, List.mem_range,
    List.mem_range'_1, Prod.mk.injEq]
  constructor
  · rintro ⟨a, ha, b, ⟨hb1, hb2⟩, rfl, rfl⟩
    omega
  · rintro ⟨hij, hjn⟩
    exact ⟨i, by omega, j, ⟨by omega, by omega⟩, rfl, rfl⟩

/-- The generated task list has `n (n-1) / 2` entries. -/
theorem length_pairTasks (n : Nat) :
    (pairTasks n).length = n * (n - 1) / 2 := by
  rw [pairTasks, List.length_flatMap]
  simp only [Function.comp_def, List.length_map, List.length_range']
  have h2 : ((List.range n).map fun i => n - (i + 1)).sum =
      ∑ i ∈ Finset.range n, (n - (i + 1)) := rfl
  rw [h2]
  have h3 : ∑ i ∈ Finset.range n, (n - (i + 1)) =
      ∑ i ∈ Finset.range n, (n - 1 - i) :=
    Finset.sum_congr rfl fun i _ => by omega
  rw [h3, Finset.sum_range_reflect (fun j => j) n]
  exact Finset.sum_range_id n

/-- A matrix is square of size n: n rows, each of length n. -/
def SquareMat (n : Nat) (m : List (List ℚ)) : Prop :=
  m.length = n ∧ ∀ i, i < n → (m.getD i []).length = n

theorem squareMat_zero (n : Nat) : SquareMat n (zeroMatrix n) := by
  constructor
  · simp [zeroMatrix]
  · intro i hi
    rw [zeroMatrix, List.getD_eq_getElem _ _ (by simpa using hi),
      List.getElem_replicate]
    simp

theorem squareMat_setMat (n : Nat) (m : List (List ℚ)) (a b : Nat) (v : ℚ)
    (hm : SquareMat n m) : SquareMat n (setMat m a b v) := by
  obtain ⟨hlen, hrow⟩ := hm
  constructor
  · rw [setMat, length_setAt, hlen]
  · intro i hi
    rw [setMat, getD_setAt]
    by_cases hai : a = i ∧ a < m.length
    · rw [if_pos hai, length_setAt]
      exact hai.1 ▸ hrow a (hai.1 ▸ hi)
    · rw [if_neg hai]
      exact hrow i hi

theorem getMat_setMat (n : Nat) (m : List (List ℚ)) (a b i j : Nat) (v : ℚ)
    (hm : SquareMat n m) (ha : a < n) (hb : b < n) :
    getMat (setMat m a b v) i j =
      if a = i ∧ b = j then v else getMat m i j := by
  obtain ⟨hlen, hrow⟩ := hm
  rw [getMat, setMat, getD_setAt]
  by_cases hai : a = i
  · rw [if_pos ⟨hai, hlen ▸ ha⟩, getD_setAt]
    by_cases hbj : b = j
    · rw [if_pos ⟨hbj, by rw [hrow a ha]; exact hb⟩, if_pos ⟨hai, hbj⟩]
    · rw [if_neg (by tauto), if_neg (by tauto), getMat, hai]
  · rw [if_neg (by tauto), if_neg (by tauto), getMat]

theorem getD_replicate {α : Type} (k : Nat) (x : α) (i : Nat) (d : α) :
    (List.replicate k x).getD i d = if i < k then x else d := by
  by_cases h : i < k
  · rw [if_pos h, List.getD_eq_getElem _ _ (by simpa using h), List.getElem_replicate]
  · rw [if_neg h, List.getD_eq_default _ _ (by simpa using Nat.le_of_not_lt h)]

theorem getMat_zeroMatrix (n i j : Nat) : getMat (zeroMatrix n) i j = 0 := by
  rw [getMat, zeroMatrix, getD_replicate]
  by_cases hi : i < n
  · rw [if_pos hi, getD_replicate]
    by_cases hj : j < n
    · rw [if_pos hj]
    · rw [if_neg hj]
  · rw [if_neg hi]
    rfl

theorem fillDistMatrix_square (n : Nat) (d : Nat → Nat → ℚ) :
    ∀ (l : List (Nat × Nat)) (m : List (List ℚ)), SquareMat n m →
      SquareMat n (fillDistMatrix d m l) := by
  intro l
  induction l with
  | nil => intro m hm; exact hm
  | cons t rest ih =>
    intro m hm
    exact ih _ (squareMat_setMat n _ _ _ _ (squareMat_setMat n m _ _ _ hm))

/-- Entries of the filled matrix in the triangle `i < j < n`, when every
delivered task lies strictly above the diagonal: both `(i,j)` and `(j,i)`
hold the mirrored task value if task `(i,j)` was delivered, and the
initial entries otherwise. -/
theorem getMat_fillDistMatrix (n : Nat) (d : Nat → Nat → ℚ) :
    ∀ (l : List (Nat × Nat)) (m : List (List ℚ)), SquareMat n m →
      (∀ t ∈ l, t.1 < t.2 ∧ t.2 < n) →
      ∀ i j, i < j → j < n →
        getMat (fillDistMatrix d m l) i j =
          (if (i, j) ∈ l then d i j else getMat m i j) ∧
        getMat (fillDistMatrix d m l) j i =
          (if (i, j) ∈ l then d i j else getMat m j i) := by
  intro l
  induction l with
  | nil => intro m hm hl i j hij hjn; simp [fillDistMatrix]
  | cons t rest ih =>
    intro m hm hl i j hij hjn
    obtain ⟨a, b⟩ := t
    have hab : a < b ∧ b < n := hl (a, b) (List.mem_cons_self _ _)
    have han : a < n := lt_trans hab.1 hab.2
    have hin : i < n := lt_trans hij hjn
    have hm1 : SquareMat n (setMat m a b (d a b)) := squareMat_setMat n m _ _ _ hm
    have hm2 : SquareMat n (setMat (setMat m a b (d a b)) b a (d a b)) :=
      squareMat_setMat n _ _ _ _ hm1
    have hrest := ih _ hm2 (fun t ht => hl t (List.mem_cons_of_mem _ ht)) i j hij hjn
    have hstep : fillDistMatrix d m ((a, b) :: rest) =
        fillDistMatrix d (setMat (setMat m a b (d a b)) b a (d a b)) rest := rfl
    rw [hstep]
    have hij2 : getMat (setMat (setMat m a b (d a b)) b a (d a b)) i j =
        if (a, b) = (i, j) then d a b else getMat m i j := by
      rw [getMat_setMat n _ b a i j _ hm1 hab.2 han,
        if_neg (show ¬(b = i ∧ a = j) by rintro ⟨rfl, rfl⟩; omega),
        getMat_setMat n m a b i j _ hm han hab.2]
      exact if_congr (by simp [Prod.ext_iff]) rfl rfl
    have hji2 : getMat (setMat (setMat m a b (d a b)) b a (d a b)) j i =
        if (a, b) = (i, j) then d a b else getMat m j i := by
      rw [getMat_setMat n _ b a j i _ hm1 hab.2 han,
        getMat_setMat n m a b j i _ hm han hab.2,
        if_neg (show ¬(a = j ∧ b = i) by rintro ⟨rfl, rfl⟩; omega)]
      exact if_congr (by simp [Prod.ext_iff]; tauto) rfl rfl
    have hgoal : ∀ z : ℚ,
        (if (i, j) ∈ rest then d i j
          else if (a, b) = (i, j) then d a b else z) =
          if (i, j) ∈ (a, b) :: rest then d i j else z := by
      intro z
      by_cases hmem : (i, j) ∈ rest
      · rw [if_pos hmem, if_pos (List.mem_cons_of_mem _ hmem)]
      · rw [if_neg hmem]
        by_cases hhd : (a, b) = (i, j)
        · have hai : a = i := congrArg Prod.fst hhd
          have hbj : b = j := congrArg Prod.snd hhd
          subst hai
          subst hbj
          rw [if_pos rfl, if_pos (List.mem_cons_self _ _)]
        · rw [if_neg hhd, if_neg (fun hc => by
            rcases List.mem_cons.mp hc with h | h
            · exact hhd h.symm
            · exact hmem h)]
    exact ⟨by rw [hrest.1, hij2, hgoal (getMat m i j)],
      by rw [hrest.2, hji2, hgoal (getMat m j i)]⟩

/-- Diagonal entries are never written when no delivered task is
diagonal. -/
theorem getMat_fillDistMatrix_diag (n : Nat) (d : Nat → Nat → ℚ) :
    ∀ (l : List (Nat × Nat)) (m : List (List ℚ)), SquareMat n m →
      (∀ t ∈ l, t.1 < t.2 ∧ t.2 < n) →
      ∀ i, getMat (fillDistMatrix d m l) i i = getMat m i i := by
  intro l
  induction l with
  | nil => intro m hm hl i; rfl
  | cons t rest ih =>
    intro m hm hl i
    obtain ⟨a, b⟩ := t
    have hab : a < b ∧ b < n := hl (a, b) (List.mem_cons_self _ _)
    have han : a < n := lt_trans hab.1 hab.2
    have hm1 : SquareMat n (setMat m a b (d a b)) := squareMat_setMat n m _ _ _ hm
    have hstep : fillDistMatrix d m ((a, b) :: rest) =
        fillDistMatrix d (setMat (setMat m a b (d a b)) b a (d a b)) rest := rfl
    rw [hstep, ih _ (squareMat_setMat n _ _ _ _ hm1)
      (fun t ht => hl t (List.mem_cons_of_mem _ ht)) i,
      getMat_setMat n _ b a i i _ hm1 hab.2 han,
      if_neg (by rintro ⟨rfl, rfl⟩; omega),
      getMat_setMat n m a b i i _ hm han hab.2,
      if_neg (by rintro ⟨rfl, rfl⟩; omega)]

/-- Claim C4: for every slice of at least two points, every distance
function and every complete delivery order, the matrix returned by
BatchDistanceConcurrent is symmetric off the diagonal, zero on the
diagonal, and the dispatched tasks are exactly the pairs `i < j < n` —
`n (n-1) / 2` of them — so the diagonal is never enumerated. -/
theorem c4_pairwise_symmetry (points : List Point)
    (distanceFunc : Point → Point → ℚ) (arrival : List (Nat × Nat))
    (_hN : 2 ≤ points.length)
    (hperm : arrival.Perm (pairTasks points.length)) :
    (∀ i j, i < points.length → j < points.length → i ≠ j →
        getMat (BatchDistanceConcurrent points distanceFunc arrival) i j =
          getMat (BatchDistanceConcurrent points distanceFunc arrival) j i) ∧
      (∀ i, i < points.length →
        getMat (BatchDistanceConcurrent points distanceFunc arrival) i i = 0) ∧
      (∀ i j, (i, j) ∈ pairTasks points.length ↔ i < j ∧ j < points.length) ∧
      (pairTasks points.length).length =
        points.length * (points.length - 1) / 2 ∧
      (∀ i, (i, i) ∉ pairTasks points.length) := by
  set n := points.length with hn
  have hbounds : ∀ t ∈ arrival, t.1 < t.2 ∧ t.2 < n := by
    intro t ht
    obtain ⟨i, j⟩ := t
    exact (mem_pairTasks n i j).mp (hperm.mem_iff.mp ht)
  have hunfold : BatchDistanceConcurrent points distanceFunc arrival =
      fillDistMatrix
        (fun a b => distanceFunc (points.getD a zeroPoint) (points.getD b zeroPoint))
        (zeroMatrix n) arrival := rfl
  refine ⟨?_, ?_, fun i j => mem_pairTasks n i j, length_pairTasks n, ?_⟩
  · intro i j hi hj hne
    rcases Nat.lt_or_ge i j with hij | hge
    · have h := getMat_fillDistMatrix n
        (fun a b => distanceFunc (points.getD a zeroPoint) (points.getD b zeroPoint))
        arrival (zeroMatrix n) (squareMat_zero n) hbounds i j hij hj
      rw [hunfold, h.1, h.2, getMat_zeroMatrix n i j, getMat_zeroMatrix n j i]
    · have hji : j < i := lt_of_le_of_ne hge (Ne.symm hne)
      have h := getMat_fillDistMatrix n
        (fun a b => distanceFunc (points.getD a zeroPoint) (points.getD b zeroPoint))
        arrival (zeroMatrix n) (squareMat_zero n) hbounds j i hji hi
      rw [hunfold, h.1, h.2, getMat_zeroMatrix n i j, getMat_zeroMatrix n j i]
  · intro i _
    rw [hunfold,
      getMat_fillDistMatrix_diag n
        (fun a b => distanceFunc (points.getD a zeroPoint) (points.getD b zeroPoint))
        arrival (zeroMatrix n) (squareMat_zero n) hbounds i,
      getMat_zeroMatrix]
  · intro i hmem
    have := (mem_pairTasks n i i).mp hmem
    omega

/-- Witness for C4 with two points and the single task (0,1) delivered. -/
theorem c4_pairwise_symmetry_witness :
    getMat (BatchDistanceConcurrent [⟨0, 0⟩, ⟨1, 1⟩]
        (fun p q => p.Lat + 2 * q.Lat) [(0, 1)]) 0 1 =
      getMat (BatchDistanceConcurrent [⟨0, 0⟩, ⟨1, 1⟩]
        (fun p q => p.Lat + 2 * q.Lat) [(0, 1)]) 1 0 ∧
      getMat (BatchDistanceConcurrent [⟨0, 0⟩, ⟨1, 1⟩]
        (fun p q => p.Lat + 2 * q.Lat) [(0, 1)]) 0 0 = 0 ∧
      ((0, 1) ∈ pairTasks 2 ↔ 0 < 1 ∧ 1 < 2) ∧
      (pairTasks 2).length = 2 * (2 - 1) / 2 ∧
      (0, 0) ∉ pairTasks 2 := by
  have h := c4_pairwise_symmetry [⟨0, 0⟩, ⟨1, 1⟩]
    (fun p q => p.Lat + 2 * q.Lat) [(0, 1)] (by decide) (by decide)
  exact ⟨h.1 0 1 (by decide) (by decide) (by decide), h.2.1 0 (by decide),
    h.2.2.1 0 1, h.2.2.2.1, h.2.2.2.2 0⟩

/-! ### The concurrency bound (claim C5)

In BatchGeocode every goroutine runs
`sem <- struct{}{}; point, err := n.Geocode(address); <-sem` (the release
is deferred), and in BatchFullLocation every worker runs
`sem <- struct{}{}; loc, err := FullLocation(...); <-sem` per task.  Each
work invocation is modelled as the four ordered steps of one worker:

1. semaphore acquire (`sem <- struct{}{}`),
2. work-function call begins,
3. work-function call returns,
4. semaphore release (`<-sem`).

An execution is a schedule: the global interleaving order of worker
steps, a `List (Fin W)` naming which worker takes its next step.  The
buffered channel of capacity `cap` blocks an acquire whenever `cap`
permits are held, so every reachable prefix of a real execution has at
most `cap` workers between steps 1 and 4; `SemValid` captures exactly the
schedules satisfying that invariant.  A worker's invocation is active
when it is between steps 2 and 3, i.e. has taken exactly 2 steps. -/

/-- Steps worker `x` has taken in the schedule (prefix) `sched`. -/
def workerSteps {W : Nat} (sched : List (Fin W)) (x : Fin W) : Nat :=
  sched.count x

/-- Number of semaphore permits held: workers past their acquire (step 1)
and not yet past their release (step 4). -/
def semHeld {W : Nat} (sched : List (Fin W)) : Nat :=
  (Finset.univ.filter fun x : Fin W =>
    1 ≤ workerSteps sched x ∧ workerSteps sched x ≤ 3).card

/-- Number of work-function invocations active: workers past the call
begin (step 2) and not yet past the call return (step 3). -/
def activeCalls {W : Nat} (sched : List (Fin W)) : Nat :=
  (Finset.univ.filter fun x : Fin W => workerSteps sched x = 2).card

/-- Schedules realisable under a semaphore of capacity `cap`: each worker
takes its 4 program steps at most once, and — since an acquire blocks
while `cap` permits are held — no reachable prefix holds more than `cap`
permits. -/
def SemValid {W : Nat} (cap : Nat) (sched : List (Fin W)) : Prop :=
  (∀ x, workerSteps sched x ≤ 4) ∧
    ∀ k, k ≤ sched.length → semHeld (sched.take k) ≤ cap

/-- A worker inside the work function holds a semaphore permit. -/
theorem activeCalls_le_semHeld {W : Nat} (sched : List (Fin W)) :
    activeCalls sched ≤ semHeld sched := by
  apply Finset.card_le_card
  intro x hx
  rw [Finset.mem_filter] at hx ⊢
  exact ⟨hx.1, by omega⟩

/-- The semaphore capacity hard-coded in BatchGeocode
(`sem := make(chan struct{}, 10)`). -/
def geocodeConcurrency : Nat := 10

/-- The semaphore capacity computed in BatchFullLocation (part_000):
`maxConcurrent := runtime.NumCPU() * 2`, capped at 20. -/
def fullLocationMaxConcurrent (ncpu : Nat) : Nat :=
  if 2 * ncpu > 20 then 20 else 2 * ncpu

theorem fullLocationMaxConcurrent_le (ncpu : Nat) :
    fullLocationMaxConcurrent ncpu ≤ 20 := by
  rw [fullLocationMaxConcurrent]
  split <;> omega

/-- Claim C5: under any schedule realisable with the configured semaphore,
the number of simultaneously active work-function invocations never
exceeds the configured concurrency — 10 for BatchGeocode, and
`min (2·NumCPU) 20` (hence never more than 20) for BatchFullLocation —
at every instant (every schedule prefix). -/
theorem c5_concurrency_bound (W : Nat) (schedG schedF : List (Fin W))
    (ncpu : Nat)
    (hG : SemValid geocodeConcurrency schedG)
    (hF : SemValid (fullLocationMaxConcurrent ncpu) schedF) :
    (∀ k, activeCalls (schedG.take k) ≤ geocodeConcurrency) ∧
      (∀ k, activeCalls (schedF.take k) ≤ fullLocationMaxConcurrent ncpu) ∧
      (∀ k, activeCalls (schedF.take k) ≤ 20) := by
  have hbound : ∀ (cap : Nat) (s : List (Fin W)), SemValid cap s →
      ∀ k, activeCalls (s.take k) ≤ cap := by
    intro cap s hs k
    rcases le_or_lt k s.length with h | h
    · exact le_trans (activeCalls_le_semHeld _) (hs.2 k h)
    · rw [List.take_of_length_le (Nat.le_of_lt h)]
      have h2 := hs.2 s.length le_rfl
      rw [List.take_length] at h2
      exact le_trans (activeCalls_le_semHeld _) h2
  exact ⟨hbound _ schedG hG,
    hbound _ schedF hF,
    fun k => le_trans (hbound _ schedF hF k) (fullLocationMaxConcurrent_le ncpu)⟩

/-- Witness for C5: two workers run strictly one after the other
(a schedule valid for any positive capacity), probed after 2 and 6
steps. -/
theorem c5_concurrency_bound_witness :
    activeCalls (([0, 0, 0, 0, 1, 1, 1, 1] : List (Fin 2)).take 2) ≤
        geocodeConcurrency ∧
      activeCalls (([0, 0, 0, 0, 1, 1, 1, 1] : List (Fin 2)).take 6) ≤
        fullLocationMaxConcurrent 1 ∧
      activeCalls (([0, 0, 0, 0, 1, 1, 1, 1] : List (Fin 2)).take 6) ≤ 20 :=
  have h := c5_concurrency_bound 2
    ([0, 0, 0, 0, 1, 1, 1, 1] : List (Fin 2))
    ([0, 0, 0, 0, 1, 1, 1, 1] : List (Fin 2)) 1
    (by constructor <;> decide) (by constructor <;> decide)
  ⟨h.1 2, h.2.1 6, h.2.2 6⟩

/-! ### Worker spawning on empty input (claim C6) -/

/-- Goroutines spawned by BatchGeocode: one per input address. -/
def geocodeNumWorkers (n : Nat) : Nat := n

/-- Workers spawned by BatchGetElevation (elevation.go):
`numWorkers := 8`, reduced to `len(points)` when smaller. -/
def elevationNumWorkers (n : Nat) : Nat := if 8 > n then n else 8

/-- Workers spawned by BatchDistanceConcurrent (part_001):
`numWorkers := 8`, with no adjustment for the input size. -/
def distanceNumWorkers (_n : Nat) : Nat := 8

/-- Workers spawned by BatchFullLocation (part_000):
`for i := 0; i < runtime.NumCPU(); i++`, with no adjustment for the
input size. -/
def fullLocationNumWorkers (ncpu : Nat) (_n : Nat) : Nat := ncpu

/-- Counterexample to claim C6 as stated: on the empty input,
BatchDistanceConcurrent still spawns its fixed pool of 8 workers
(`numWorkers := 8` does not depend on the input), so "without spawning
any workers" is false. -/
theorem c6_empty_input_counterexample : distanceNumWorkers 0 ≠ 0 := by
  decide

/-- Claim C6 (amended): on the empty input every batch operation returns
an empty output and no error without ever invoking the work function
(the result below is independent of the arbitrary work functions);
BatchGeocode and BatchGetElevation spawn no workers, but
BatchDistanceConcurrent spawns its fixed 8 workers and BatchFullLocation
spawns NumCPU workers, which exit without processing any task. -/
theorem c6_empty_input {ε : Type} (geocode : String → Except ε Point)
    (getElevation : Point → Except ε Int)
    (reverseGeocode : Point → Except ε Location)
    (distanceFunc : Point → Point → ℚ) (ncpu : Nat) :
    BatchGeocode geocode [] [] = .ok [] ∧
      BatchGetElevation getElevation [] [] = .ok [] ∧
      BatchFullLocation reverseGeocode getElevation [] [] = .ok [] ∧
      BatchDistanceConcurrent [] distanceFunc [] = [] ∧
      geocodeNumWorkers 0 = 0 ∧
      elevationNumWorkers 0 = 0 ∧
      distanceNumWorkers 0 = 8 ∧
      fullLocationNumWorkers ncpu 0 = ncpu :=
  ⟨rfl, rfl, rfl, rfl, rfl, rfl, rfl, rfl⟩

end Geoutil
